import Mathlib

/-!
Verification of the conversation core of the Station-2290 WhatsApp bot.

The development shallowly embeds:
* the XState conversation machine of `src/models/conversation.model.ts`
  (states, guarded transitions, `assign` actions, the `always` pseudo-state
  of the checkout sub-machine, and the `invoke` results of `createCustomer`
  and `placeOrder` delivered as done/error events);
* the `ConversationManager` session store of the same file (idle-timeout
  session replacement);
* the message-routing helpers of `src/services/ai.service.ts` that decide
  which machine events are sent (`processNaturalOrderRequest`,
  `handleCollectingEmailState`).
-/

namespace Bot

/-- Product, as used by the bot (the schema itself lives in generated API
types): `id` drives cart merging, `name` drives catalog matching, `price`
drives display totals. -/
structure Product where
  id : Nat
  name : String
  price : Rat
deriving Repr, DecidableEq

/-- Customer returned by the ordering backend. -/
structure Customer where
  id : Nat
  first_name : String
  last_name : String
  email : String
  phone : String
deriving Repr, DecidableEq

/-- Order returned by the ordering backend. -/
structure Order where
  id : Nat
  order_number : String
  status : String
  total_amount : Rat
deriving Repr, DecidableEq

/-- One cart line: `{ product, quantity }` (conversation.model.ts). -/
structure CartItem where
  product : Product
  quantity : Nat
deriving Repr, DecidableEq

/-- Collected checkout data (`ConversationContext.customerInfo`). -/
structure CustomerInfo where
  firstName : Option String := none
  lastName : Option String := none
  email : Option String := none
deriving Repr, DecidableEq

/-- `ConversationContext` of the XState machine (conversation.model.ts:124-136). -/
structure ConversationContext where
  userId : String
  cart : List CartItem
  customer : Option Customer := none
  pendingOrder : Option Order := none
  selectedCategory : Option Nat := none
  customerInfo : CustomerInfo := {}
  error : Option String := none
deriving Repr, DecidableEq

/-- The machine's states. The six leaf states of the `checkout` composite
state are flattened (`checkingCustomer` .. `placingOrder`). -/
inductive MachineState
  | idle
  | greeting
  | viewingMenu
  | selectingProducts
  | reviewingCart
  | checkingCustomer
  | collectingName
  | collectingEmail
  | creatingCustomer
  | confirmingOrder
  | placingOrder
  | orderCompleted
deriving Repr, DecidableEq

/-- Is the state a leaf of the `checkout` composite state? -/
def inCheckout : MachineState → Bool
  | .checkingCustomer => true
  | .collectingName => true
  | .collectingEmail => true
  | .creatingCustomer => true
  | .confirmingOrder => true
  | .placingOrder => true
  | _ => false

/-- Events processed by the machine.  The first fifteen constructors are the
declared `ConversationEvent` union (conversation.model.ts:138-153).
`CUSTOMER_FOUND` is the event the router sends at checkout entry
(ai.service.ts:474) although it is absent from the declared union.  The four
`..._DONE`/`..._ERROR` constructors model the internal results of the
`createCustomer` and `placeOrder` invocations (`invoke.onDone`/`onError`). -/
inductive ConversationEvent
  | START
  | VIEW_MENU
  | SELECT_CATEGORY (categoryId : Nat)
  | ADD_TO_CART (product : Product) (quantity : Nat)
  | VIEW_CART
  | CHECKOUT
  | PROVIDE_NAME (firstName : String) (lastName : String)
  | PROVIDE_EMAIL (email : String)
  | CONFIRM_ORDER
  | CANCEL_ORDER
  | ORDER_PLACED (order : Order)
  | CLEAR_CART
  | BACK
  | ERROR (error : String)
  | RESET
  | CUSTOMER_FOUND (customer : Customer)
  | CREATE_CUSTOMER_DONE (customer : Customer)
  | CREATE_CUSTOMER_ERROR (message : String)
  | PLACE_ORDER_DONE (order : Order)
  | PLACE_ORDER_ERROR (message : String)
deriving Repr, DecidableEq

/-- Membership in the declared `ConversationEvent` TypeScript union
(conversation.model.ts:138-153): `CUSTOMER_FOUND` and the framework-internal
invocation-result events are not part of it. -/
def declaredEvent : ConversationEvent → Bool
  | .CUSTOMER_FOUND _ => false
  | .CREATE_CUSTOMER_DONE _ => false
  | .CREATE_CUSTOMER_ERROR _ => false
  | .PLACE_ORDER_DONE _ => false
  | .PLACE_ORDER_ERROR _ => false
  | _ => true

/-- Cart update of the `ADD_TO_CART` self-loop in `selectingProducts`
(conversation.model.ts:212-230): if a line with the same product id exists,
every line with that id gets the quantity added, else a new line is appended. -/
def mergeAddToCart (cart : List CartItem) (product : Product) (quantity : Nat) :
    List CartItem :=
  match cart.find? (fun item => item.product.id == product.id) with
  | some _ =>
      cart.map (fun item =>
        if item.product.id == product.id then
          { item with quantity := item.quantity + quantity }
        else item)
  | none => cart ++ [⟨product, quantity⟩]

/-- Cart update of `ADD_TO_CART` in `greeting` (conversation.model.ts:183-191)
and in `reviewingCart` (conversation.model.ts:257-265): unconditional append. -/
def appendToCart (cart : List CartItem) (product : Product) (quantity : Nat) :
    List CartItem :=
  cart ++ [⟨product, quantity⟩]

/-- The `assign` actions of the machine-level `RESET` transition
(conversation.model.ts:400-410, identical in `orderCompleted`, 380-390). -/
def resetContext (ctx : ConversationContext) : ConversationContext :=
  { ctx with
    cart := []
    customer := none
    pendingOrder := none
    selectedCategory := none
    customerInfo := {}
    error := none }

/-- The `always` transitions of `checkout.checkingCustomer`
(conversation.model.ts:271-281): with `!!context.customer` go straight to
`confirmingOrder`, else to `collectingName`.  All other states have no
eventless transitions. -/
def resolveAlways (s : MachineState) (ctx : ConversationContext) : MachineState :=
  match s with
  | .checkingCustomer =>
      if ctx.customer.isSome then .confirmingOrder else .collectingName
  | s => s

/-- The per-state `on` transition tables of `conversationMachine`
(conversation.model.ts:167-393).  `none` means the state does not take the
event (including a refused guard), so selection falls through to the
machine-level handlers. -/
def stateTransition (s : MachineState) (ctx : ConversationContext) :
    ConversationEvent → Option (MachineState × ConversationContext) := fun e =>
  match s, e with
  | .idle, .START => some (.greeting, ctx)
  | .idle, .VIEW_MENU => some (.viewingMenu, ctx)
  | .greeting, .VIEW_MENU => some (.viewingMenu, ctx)
  | .greeting, .ADD_TO_CART p q =>
      some (.selectingProducts, { ctx with cart := appendToCart ctx.cart p q })
  | .viewingMenu, .SELECT_CATEGORY c =>
      some (.selectingProducts, { ctx with selectedCategory := some c })
  | .viewingMenu, .VIEW_CART => some (.reviewingCart, ctx)
  | .viewingMenu, .BACK => some (.greeting, ctx)
  | .selectingProducts, .ADD_TO_CART p q =>
      some (.selectingProducts, { ctx with cart := mergeAddToCart ctx.cart p q })
  | .selectingProducts, .VIEW_CART => some (.reviewingCart, ctx)
  | .selectingProducts, .VIEW_MENU => some (.viewingMenu, ctx)
  | .selectingProducts, .CHECKOUT => some (.checkingCustomer, ctx)
  | .reviewingCart, .CHECKOUT =>
      if ctx.cart.length > 0 then some (.checkingCustomer, ctx) else none
  | .reviewingCart, .VIEW_MENU => some (.viewingMenu, ctx)
  | .reviewingCart, .CLEAR_CART => some (.viewingMenu, { ctx with cart := [] })
  | .reviewingCart, .ADD_TO_CART p q =>
      some (.selectingProducts, { ctx with cart := appendToCart ctx.cart p q })
  | .collectingName, .PROVIDE_NAME f l =>
      some (.collectingEmail,
        { ctx with customerInfo :=
            { ctx.customerInfo with firstName := some f, lastName := some l } })
  | .collectingName, .CANCEL_ORDER => some (.reviewingCart, ctx)
  | .collectingEmail, .PROVIDE_EMAIL em =>
      some (.creatingCustomer,
        { ctx with customerInfo := { ctx.customerInfo with email := some em } })
  | .collectingEmail, .CANCEL_ORDER => some (.reviewingCart, ctx)
  | .creatingCustomer, .CREATE_CUSTOMER_DONE c =>
      some (.confirmingOrder, { ctx with customer := some c })
  | .creatingCustomer, .CREATE_CUSTOMER_ERROR m =>
      some (.collectingEmail, { ctx with error := some m })
  | .confirmingOrder, .CONFIRM_ORDER => some (.placingOrder, ctx)
  | .confirmingOrder, .CANCEL_ORDER => some (.reviewingCart, ctx)
  | .placingOrder, .PLACE_ORDER_DONE o =>
      some (.orderCompleted, { ctx with pendingOrder := some o, cart := [] })
  | .placingOrder, .PLACE_ORDER_ERROR m =>
      some (.confirmingOrder, { ctx with error := some m })
  | .orderCompleted, .START => some (.greeting, ctx)
  | .orderCompleted, .VIEW_MENU => some (.viewingMenu, ctx)
  | .orderCompleted, .RESET => some (.idle, resetContext ctx)
  | _, _ => none

/-- The machine-level `on` handlers (conversation.model.ts:394-411):
`ERROR` stores the message without changing state, `RESET` targets `idle`
with a full context reset. -/
def rootTransition (s : MachineState) (ctx : ConversationContext) :
    ConversationEvent → Option (MachineState × ConversationContext)
  | .ERROR m => some (s, { ctx with error := some m })
  | .RESET => some (.idle, resetContext ctx)
  | _ => none

/-- A machine configuration: active leaf state plus context. -/
structure MachineConfig where
  state : MachineState
  context : ConversationContext
deriving Repr, DecidableEq

/-- One XState microstep: try the active state's transitions, else the
machine-level ones, else drop the event; then settle `always` transitions. -/
def machineStep (c : MachineConfig) (e : ConversationEvent) : MachineConfig :=
  match stateTransition c.state c.context e with
  | some (s, ctx) => ⟨resolveAlways s ctx, ctx⟩
  | none =>
      match rootTransition c.state c.context e with
      | some (s, ctx) => ⟨resolveAlways s ctx, ctx⟩
      | none => c

/-- Deliver a sequence of events. -/
def runMachine (c : MachineConfig) : List ConversationEvent → MachineConfig
  | [] => c
  | e :: es => runMachine (machineStep c e) es

/-- The machine's initial context (conversation.model.ts:158-162). -/
def initialContext (userId : String) : ConversationContext :=
  { userId := userId, cart := [], customerInfo := {} }

/-- Initial configuration of a fresh actor. -/
def initialConfig (userId : String) : MachineConfig :=
  ⟨.idle, initialContext userId⟩

/-- Product ids of the cart lines, in order. -/
def cartIds (cart : List CartItem) : List Nat :=
  cart.map (fun item => item.product.id)

/-- Total quantity the cart records for a product id. -/
def cartQty (cart : List CartItem) (pid : Nat) : Nat :=
  ((cart.filter (fun item => item.product.id == pid)).map
    (fun item => item.quantity)).sum

/-- Number of cart lines carrying a product id. -/
def linesFor (cart : List CartItem) (pid : Nat) : Nat :=
  (cart.filter (fun item => item.product.id == pid)).length

/-- The cart invariant claimed by the spec: no two lines share a product. -/
def NodupCart (cart : List CartItem) : Prop :=
  (cartIds cart).Nodup

instance (cart : List CartItem) : Decidable (NodupCart cart) :=
  inferInstanceAs (Decidable (cartIds cart).Nodup)

end Bot

namespace Bot.Manager

/-- `ConversationStep` enum of the legacy `ConversationManager` model. -/
inductive ConversationStep
  | IDLE
  | GREETING
  | VIEWING_MENU
  | SELECTING_PRODUCTS
  | REVIEWING_CART
  | COLLECTING_CUSTOMER_INFO
  | CONFIRMING_ORDER
  | ORDER_COMPLETED
deriving Repr, DecidableEq

/-- The nested `context` record of `ConversationState`. -/
structure StateContext where
  selectedCategory : Option Nat := none
  awaitingConfirmation : Option Bool := none
  awaitingCustomerInfo : Option String := none
deriving Repr, DecidableEq

/-- `ConversationState` of the session store; `lastActivity` is the
millisecond timestamp `Date.getTime()` yields. -/
structure ConversationState where
  userId : String
  currentStep : ConversationStep
  cart : List CartItem
  customer : Option Customer := none
  pendingOrder : Option Order := none
  lastActivity : Int
  context : StateContext := {}
deriving Repr, DecidableEq

/-- `SESSION_TIMEOUT = 30 * 60 * 1000` milliseconds. -/
def SESSION_TIMEOUT : Int := 30 * 60 * 1000

/-- `isSessionValid` (conversation.model.ts:99-103). -/
def isSessionValid (now : Int) (conversation : ConversationState) : Bool :=
  now - conversation.lastActivity < SESSION_TIMEOUT

/-- The store: the `Map<string, ConversationState>` as an association list. -/
structure ConversationManager where
  conversations : List (String × ConversationState)
deriving Repr, DecidableEq

/-- The freshly initialized session built by `getConversation`. -/
def newConversation (userId : String) (now : Int) : ConversationState :=
  { userId := userId
    currentStep := .IDLE
    cart := []
    lastActivity := now
    context := {} }

/-- `Map.set`: bind the key, dropping any previous binding. -/
def setConversation (m : ConversationManager) (userId : String)
    (s : ConversationState) : ConversationManager :=
  ⟨(userId, s) :: m.conversations.filter (fun kv => !(kv.1 == userId))⟩

/-- `getConversation` (conversation.model.ts:37-55): a valid session is
returned with its activity refreshed; a missing or expired one is replaced
by a fresh session.  `now` stands for `new Date()`. -/
def getConversation (m : ConversationManager) (now : Int) (userId : String) :
    ConversationState × ConversationManager :=
  match m.conversations.lookup userId with
  | some existing =>
      if isSessionValid now existing then
        let updated := { existing with lastActivity := now }
        (updated, setConversation m userId updated)
      else
        let fresh := newConversation userId now
        (fresh, setConversation m userId fresh)
  | none =>
      let fresh := newConversation userId now
      (fresh, setConversation m userId fresh)

end Bot.Manager

namespace Bot

/-- One `{productName, quantity}` pair as returned by
`aiService.parseOrderFromMessage`. -/
structure ParsedOrderItem where
  productName : String
  quantity : Nat
deriving Repr, DecidableEq

/-- The `ADD_TO_CART` events `processNaturalOrderRequest` sends
(ai.service.ts:772-778): for each parsed item, `products.find` with exact
name equality; a match sends one event with the parsed quantity, a miss
sends nothing. -/
def naturalOrderEvents (orderItems : List ParsedOrderItem)
    (products : List Product) : List ConversationEvent :=
  match orderItems with
  | [] => []
  | item :: rest =>
      match products.find? (fun p => p.name == item.productName) with
      | some product =>
          .ADD_TO_CART product item.quantity :: naturalOrderEvents rest products
      | none => naturalOrderEvents rest products

/-- JS `String.prototype.trim`: strip leading and trailing whitespace. -/
def tsTrim (s : String) : String :=
  ⟨((s.data.dropWhile Char.isWhitespace).reverse.dropWhile
      Char.isWhitespace).reverse⟩

/-- JS `String.prototype.includes` applied to a one-character needle, as in
`email.includes('@')`. -/
def tsIncludes (s : String) (c : Char) : Bool :=
  s.data.contains c

/-- The event `handleCollectingEmailState` sends (ai.service.ts:497-516):
the trimmed input must contain an `@` and a `.`, otherwise the user is
re-prompted and no event is sent. -/
def collectingEmailEvent (input : String) : Option ConversationEvent :=
  let email := tsTrim input
  if !(tsIncludes email '@') || !(tsIncludes email '.') then none
  else some (.PROVIDE_EMAIL email)

/-- Effect of `handleCollectingEmailState` on the machine: forward the
event when validation passes, leave the actor untouched otherwise. -/
def handleCollectingEmailState (c : MachineConfig) (input : String) :
    MachineConfig :=
  match collectingEmailEvent input with
  | none => c
  | some e => machineStep c e

/-- Concrete product for witnesses (spec scenario product 42; an integer
price keeps concrete evaluation in the kernel). -/
def latte : Product := ⟨42, "Latte", 5⟩

/-- Concrete customer for witnesses. -/
def ana : Customer := ⟨7, "Ana", "Lopez", "ana@x.com", "555"⟩

/-- A context holding a known customer and one cart line. -/
def knownCustomerCtx : ConversationContext :=
  { userId := "555", cart := [⟨latte, 1⟩], customer := some ana }

/-!  ## Claim theorems  -/

/-- C2: a successful `placeOrder` invocation (`onDone`,
conversation.model.ts:355-361) moves `checkout.placingOrder` to
`orderCompleted`, empties the cart and stores the returned order in
`pendingOrder`; nothing else of the context changes. -/
theorem placingOrder_success_completes_order (ctx : ConversationContext)
    (order : Order) :
    machineStep ⟨.placingOrder, ctx⟩ (.PLACE_ORDER_DONE order) =
      ⟨.orderCompleted, { ctx with pendingOrder := some order, cart := [] }⟩ :=
  rfl

/-- C3: a failed `placeOrder` invocation (`onError`,
conversation.model.ts:362-367) returns to `checkout.confirmingOrder`,
records the failure message in `context.error`, and leaves the cart (and
everything else) exactly as it was before the invocation. -/
theorem placingOrder_failure_preserves_cart (ctx : ConversationContext)
    (msg : String) :
    machineStep ⟨.placingOrder, ctx⟩ (.PLACE_ORDER_ERROR msg) =
      ⟨.confirmingOrder, { ctx with error := some msg }⟩ ∧
    (machineStep ⟨.placingOrder, ctx⟩ (.PLACE_ORDER_ERROR msg)).context.cart =
      ctx.cart :=
  ⟨rfl, rfl⟩

/-- C5: from every machine state (hence from every reachable one), `RESET`
yields `idle` with the cart emptied and `customer`, `pendingOrder`,
`selectedCategory`, `customerInfo` and `error` cleared
(conversation.model.ts:400-410; `orderCompleted` repeats the same
transition locally, 380-390). -/
theorem reset_resets_machine (s : MachineState) (ctx : ConversationContext) :
    (machineStep ⟨s, ctx⟩ .RESET).state = .idle ∧
    (machineStep ⟨s, ctx⟩ .RESET).context.cart = [] ∧
    (machineStep ⟨s, ctx⟩ .RESET).context.customer = none ∧
    (machineStep ⟨s, ctx⟩ .RESET).context.pendingOrder = none ∧
    (machineStep ⟨s, ctx⟩ .RESET).context.selectedCategory = none ∧
    (machineStep ⟨s, ctx⟩ .RESET).context.customerInfo = {} ∧
    (machineStep ⟨s, ctx⟩ .RESET).context.error = none := by
  cases s <;>
    exact ⟨rfl, rfl, rfl, rfl, rfl, rfl, rfl⟩

/-- C8: `CUSTOMER_FOUND`, which the router sends when the phone lookup at
checkout entry finds a customer (ai.service.ts:468-482), is not part of the
declared event union and no state handles it: from every state it leaves
the configuration — state and entire context, `customer` included —
unchanged, so this path never installs the found customer. -/
theorem customer_found_is_ignored (s : MachineState)
    (ctx : ConversationContext) (customer : Customer) :
    declaredEvent (.CUSTOMER_FOUND customer) = false ∧
    machineStep ⟨s, ctx⟩ (.CUSTOMER_FOUND customer) = ⟨s, ctx⟩ := by
  refine ⟨rfl, ?_⟩
  cases s <;> rfl

/-- C4: `CHECKOUT` in `reviewingCart` is guarded by
`context.cart.length > 0` (conversation.model.ts:244-247): the event causes
no change at all exactly when the cart is empty, and a non-empty cart moves
the machine into the `checkout` composite state. -/
theorem reviewingCart_checkout_guard (ctx : ConversationContext) :
    (machineStep ⟨.reviewingCart, ctx⟩ .CHECKOUT = ⟨.reviewingCart, ctx⟩ ↔
      ctx.cart = []) ∧
    (ctx.cart ≠ [] →
      inCheckout (machineStep ⟨.reviewingCart, ctx⟩ .CHECKOUT).state = true) := by
  rcases hcart : ctx.cart with _ | ⟨item, rest⟩ <;>
    rcases hcust : ctx.customer with _ | c <;>
      simp [machineStep, stateTransition, rootTransition, resolveAlways,
        hcart, hcust, inCheckout, MachineConfig.mk.injEq]

/-- C4 witness: with one line in the cart, `CHECKOUT` from `reviewingCart`
enters the checkout composite state. -/
theorem reviewingCart_checkout_guard_witness :
    knownCustomerCtx.cart ≠ [] ∧
    inCheckout
      (machineStep ⟨.reviewingCart, knownCustomerCtx⟩ .CHECKOUT).state = true := by
  refine ⟨by decide, ?_⟩
  exact (reviewingCart_checkout_guard knownCustomerCtx).2 (by decide)

/-- C7: entering `checkout` lands in `checkingCustomer`, whose `always`
transitions (conversation.model.ts:271-281) settle in the same microstep:
with `context.customer` set the machine is immediately in
`confirmingOrder`, never visiting `collectingName` or `collectingEmail`;
without a customer it is immediately in `collectingName`.  This is shown
both for the pseudo-state itself and for both `CHECKOUT` entry points. -/
theorem checkout_entry_fast_path (ctx : ConversationContext) :
    (ctx.customer.isSome = true →
      resolveAlways .checkingCustomer ctx = .confirmingOrder ∧
      (machineStep ⟨.selectingProducts, ctx⟩ .CHECKOUT).state =
        .confirmingOrder ∧
      (ctx.cart ≠ [] →
        (machineStep ⟨.reviewingCart, ctx⟩ .CHECKOUT).state =
          .confirmingOrder)) ∧
    (ctx.customer = none →
      resolveAlways .checkingCustomer ctx = .collectingName ∧
      (machineStep ⟨.selectingProducts, ctx⟩ .CHECKOUT).state =
        .collectingName) := by
  rcases hcust : ctx.customer with _ | c
  · refine ⟨fun h => by simp [hcust] at h, fun _ => ⟨?_, ?_⟩⟩ <;>
      simp [machineStep, stateTransition, resolveAlways, hcust]
  · refine ⟨fun _ => ⟨?_, ?_, fun hcart => ?_⟩, fun h => by simp [hcust] at h⟩
    · simp [resolveAlways, hcust]
    · simp [machineStep, stateTransition, resolveAlways, hcust]
    · rcases hc : ctx.cart with _ | ⟨item, rest⟩
      · exact absurd hc hcart
      · simp [machineStep, stateTransition, resolveAlways, hcust, hc]

/-- C7 witness: with a known customer and a non-empty cart, `CHECKOUT`
from both `selectingProducts` and `reviewingCart` lands directly in
`confirmingOrder`. -/
theorem checkout_entry_fast_path_witness :
    knownCustomerCtx.customer.isSome = true ∧
    (machineStep ⟨.selectingProducts, knownCustomerCtx⟩ .CHECKOUT).state =
      .confirmingOrder ∧
    (machineStep ⟨.reviewingCart, knownCustomerCtx⟩ .CHECKOUT).state =
      .confirmingOrder := by
  have h := (checkout_entry_fast_path knownCustomerCtx).1 (by decide)
  exact ⟨by decide, h.2.1, h.2.2 (by decide)⟩

/-- C10: `handleCollectingEmailState` validates locally
(ai.service.ts:497-516): if the trimmed input lacks an `@` or a `.`, no
event reaches the machine and the configuration is untouched; if it has
both, exactly `PROVIDE_EMAIL` with the trimmed input is sent. -/
theorem collectingEmail_validation (c : MachineConfig) (input : String) :
    ((tsIncludes (tsTrim input) '@' && tsIncludes (tsTrim input) '.') = false →
      collectingEmailEvent input = none ∧
      handleCollectingEmailState c input = c) ∧
    ((tsIncludes (tsTrim input) '@' && tsIncludes (tsTrim input) '.') = true →
      collectingEmailEvent input =
        some (.PROVIDE_EMAIL (tsTrim input))) := by
  constructor
  · intro h
    have hev : collectingEmailEvent input = none := by
      rcases Bool.and_eq_false_iff.mp h with h1 | h1 <;>
        simp [collectingEmailEvent, h1]
    exact ⟨hev, by simp [handleCollectingEmailState, hev]⟩
  · intro h
    simp [collectingEmailEvent, (Bool.and_eq_true_iff.mp h).1,
      (Bool.and_eq_true_iff.mp h).2]

/-- C10 witness: "not-an-email" is rejected with the machine untouched,
while "ana@x.com" yields exactly a `PROVIDE_EMAIL` event. -/
theorem collectingEmail_validation_witness :
    ((tsIncludes (tsTrim "not-an-email") '@' &&
      tsIncludes (tsTrim "not-an-email") '.') = false) ∧
    handleCollectingEmailState (initialConfig "u") "not-an-email" =
      initialConfig "u" ∧
    ((tsIncludes (tsTrim "ana@x.com") '@' &&
      tsIncludes (tsTrim "ana@x.com") '.') = true) ∧
    collectingEmailEvent "ana@x.com" =
      some (.PROVIDE_EMAIL (tsTrim "ana@x.com")) := by
  refine ⟨by decide, ?_, by decide, ?_⟩
  · exact ((collectingEmail_validation (initialConfig "u") "not-an-email").1
      (by decide)).2
  · exact (collectingEmail_validation (initialConfig "u") "ana@x.com").2
      (by decide)

/-- C6: `getConversation` (conversation.model.ts:37-55): an existing
session is returned (with refreshed activity) exactly when its idle time is
strictly below `SESSION_TIMEOUT`; a missing or expired entry is replaced in
the store by a fresh session in step `IDLE` with an empty cart and no
customer, so an expired session is never resumed. -/
theorem getConversation_timeout_spec (m : Manager.ConversationManager)
    (now : Int) (userId : String) :
    (∀ s, m.conversations.lookup userId = some s →
      Manager.isSessionValid now s = true →
      (Manager.getConversation m now userId).1 =
        { s with lastActivity := now }) ∧
    (∀ s, m.conversations.lookup userId = some s →
      Manager.isSessionValid now s = false →
      (Manager.getConversation m now userId).1 =
        Manager.newConversation userId now) ∧
    (m.conversations.lookup userId = none →
      (Manager.getConversation m now userId).1 =
        Manager.newConversation userId now) ∧
    ((Manager.getConversation m now userId).2.conversations.lookup userId =
      some (Manager.getConversation m now userId).1) ∧
    (∀ s, Manager.isSessionValid now s = true ↔
      now - s.lastActivity < Manager.SESSION_TIMEOUT) ∧
    (Manager.newConversation userId now).currentStep = .IDLE ∧
    (Manager.newConversation userId now).cart = [] ∧
    (Manager.newConversation userId now).customer = none := by
  refine ⟨?_, ?_, ?_, ?_, ?_, rfl, rfl, rfl⟩
  · intro s hs hv
    simp [Manager.getConversation, hs, hv]
  · intro s hs hv
    simp [Manager.getConversation, hs, hv]
  · intro h
    simp [Manager.getConversation, h]
  · rcases hs : m.conversations.lookup userId with _ | s
    · simp [Manager.getConversation, hs, Manager.setConversation, List.lookup]
    · by_cases hv : Manager.isSessionValid now s = true
      · simp [Manager.getConversation, hs, hv, Manager.setConversation,
          List.lookup]
      · rw [Bool.not_eq_true] at hv
        simp [Manager.getConversation, hs, hv, Manager.setConversation,
          List.lookup]
  · intro s
    simp [Manager.isSessionValid]

/-- A stale session for the C6 witness: last activity at time 0. -/
def staleSession : Manager.ConversationState :=
  { userId := "u"
    currentStep := .GREETING
    cart := [⟨latte, 2⟩]
    lastActivity := 0 }

/-- A store holding only the stale session. -/
def staleManager : Manager.ConversationManager := ⟨[("u", staleSession)]⟩

/-- C6 witness: accessed at exactly the 30-minute mark (idle time equal to
the timeout, hence not strictly below it), the stale session is replaced by
a fresh `IDLE` session. -/
theorem getConversation_timeout_spec_witness :
    staleManager.conversations.lookup "u" = some staleSession ∧
    Manager.isSessionValid 1800000 staleSession = false ∧
    (Manager.getConversation staleManager 1800000 "u").1 =
      Manager.newConversation "u" 1800000 := by
  refine ⟨by decide, by decide, ?_⟩
  exact (getConversation_timeout_spec staleManager 1800000 "u").2.1
    staleSession (by decide) (by decide)

/-- C9: `processNaturalOrderRequest` (ai.service.ts:759-788) sends exactly
one `ADD_TO_CART` event, carrying the parsed quantity, per parsed item
whose `productName` is string-equal to some catalog product's name, and no
event for the others: the sent events are the `filterMap` of an exact-name
`find?` over the catalog, a `find?` hit is a member with an equal name, and
a miss means no catalog product has that exact name. -/
theorem naturalOrderEvents_exact_match (orderItems : List ParsedOrderItem)
    (products : List Product) :
    naturalOrderEvents orderItems products =
      orderItems.filterMap (fun item =>
        (products.find? (fun p => p.name == item.productName)).map
          (fun product => ConversationEvent.ADD_TO_CART product item.quantity)) ∧
    (naturalOrderEvents orderItems products).length =
      (orderItems.filter (fun item =>
        products.any (fun p => p.name == item.productName))).length ∧
    (∀ item ∈ orderItems, ∀ product,
      products.find? (fun p => p.name == item.productName) = some product →
      product ∈ products ∧ product.name = item.productName) ∧
    (∀ item ∈ orderItems,
      (products.find? (fun p => p.name == item.productName) = none ↔
        ∀ product ∈ products, product.name ≠ item.productName)) := by
  refine ⟨?_, ?_, ?_, ?_⟩
  · induction orderItems with
    | nil => rfl
    | cons item rest ih =>
        rcases hf : products.find? (fun p => p.name == item.productName)
          with _ | product <;>
          simp [naturalOrderEvents, hf, ih]
  · induction orderItems with
    | nil => rfl
    | cons item rest ih =>
        rcases hf : products.find? (fun p => p.name == item.productName)
          with _ | product
        · have hany : products.any (fun p => p.name == item.productName) =
              false := by
            simp only [List.any_eq_false]
            intro p hp
            have := List.find?_eq_none.mp hf p hp
            simpa using this
          simp [naturalOrderEvents, hf, hany, ih]
        · have hp := List.find?_some hf
          have hmem := List.mem_of_find?_eq_some hf
          have hany : products.any (fun p => p.name == item.productName) =
              true := List.any_eq_true.mpr ⟨product, hmem, hp⟩
          simp [naturalOrderEvents, hf, hany, ih]
  · intro item _ product hf
    refine ⟨List.mem_of_find?_eq_some hf, ?_⟩
    have := List.find?_some hf
    simpa using this
  · intro item _
    constructor
    · intro hf product hp
      have := List.find?_eq_none.mp hf product hp
      simpa using this
    · intro hne
      refine List.find?_eq_none.mpr ?_
      intro p hp
      simpa using hne p hp

/-- C9 witness: of the parsed pairs ("Latte", 2) and ("Mocha", 1) against a
catalog holding only product 42 "Latte", exactly one `ADD_TO_CART` event is
sent, for product 42 with quantity 2; "Mocha" is silently skipped. -/
theorem naturalOrderEvents_exact_match_witness :
    (⟨"Latte", 2⟩ : ParsedOrderItem) ∈
      [(⟨"Latte", 2⟩ : ParsedOrderItem), ⟨"Mocha", 1⟩] ∧
    latte ∈ [latte] ∧ latte.name = "Latte" ∧
    naturalOrderEvents [⟨"Latte", 2⟩, ⟨"Mocha", 1⟩] [latte] =
      [ConversationEvent.ADD_TO_CART latte 2] := by
  have h := (naturalOrderEvents_exact_match
      [⟨"Latte", 2⟩, ⟨"Mocha", 1⟩] [latte]).2.2.1
    ⟨"Latte", 2⟩ (by decide) latte (by decide)
  exact ⟨by decide, h.1, h.2, by decide⟩

/-!  ## Cart-merge lemmas for C1  -/

/-- Appending when `find?` misses. -/
theorem mergeAddToCart_of_find_none (cart : List CartItem) (p : Product)
    (q : Nat)
    (h : cart.find? (fun item => item.product.id == p.id) = none) :
    mergeAddToCart cart p q = cart ++ [⟨p, q⟩] := by
  simp [mergeAddToCart, h]

/-- A non-matching head commutes with the merge. -/
theorem mergeAddToCart_cons_of_ne (item : CartItem) (cart : List CartItem)
    (p : Product) (q : Nat) (h : (item.product.id == p.id) = false) :
    mergeAddToCart (item :: cart) p q = item :: mergeAddToCart cart p q := by
  have hf0 : List.find? (fun it => it.product.id == p.id) (item :: cart) =
      List.find? (fun it => it.product.id == p.id) cart :=
    List.find?_cons_of_neg _ (by simp [h])
  have hne : item.product.id ≠ p.id := by simpa using h
  unfold mergeAddToCart
  rw [hf0]
  cases hf : cart.find? (fun it => it.product.id == p.id) <;>
    simp [h, hne]

/-- Bumping quantities is the identity on a cart with no matching line. -/
theorem map_bump_of_no_match (cart : List CartItem) (p : Product) (q : Nat)
    (hrest : ∀ x ∈ cart, (x.product.id == p.id) = false) :
    cart.map (fun it =>
      if it.product.id == p.id then { it with quantity := it.quantity + q }
      else it) = cart := by
  induction cart with
  | nil => rfl
  | cons a t ih =>
      have ha := hrest a (List.mem_cons_self a t)
      rw [List.map_cons,
        if_neg (show ¬((a.product.id == p.id) = true) by simp [ha]),
        ih (fun x hx => hrest x (List.mem_cons_of_mem a hx))]

/-- A matching head with no further match: only the head is bumped. -/
theorem mergeAddToCart_cons_of_eq (item : CartItem) (cart : List CartItem)
    (p : Product) (q : Nat) (h : (item.product.id == p.id) = true)
    (hrest : ∀ x ∈ cart, (x.product.id == p.id) = false) :
    mergeAddToCart (item :: cart) p q =
      { item with quantity := item.quantity + q } :: cart := by
  have hf0 : List.find? (fun it => it.product.id == p.id) (item :: cart) =
      some item := List.find?_cons_of_pos _ h
  unfold mergeAddToCart
  rw [hf0, List.map_cons, if_pos h, map_bump_of_no_match cart p q hrest]

/-- Merging either keeps the id list or appends the new product's id. -/
theorem cartIds_mergeAddToCart (cart : List CartItem) (p : Product) (q : Nat) :
    cartIds (mergeAddToCart cart p q) = cartIds cart ∨
    cartIds (mergeAddToCart cart p q) = cartIds cart ++ [p.id] := by
  unfold mergeAddToCart
  rcases hf : cart.find? (fun item => item.product.id == p.id) with _ | it <;>
    rw [hf]
  · right
    simp [cartIds]
  · left
    simp only [cartIds, List.map_map]
    refine List.map_congr_left (fun x _ => ?_)
    by_cases hx : (x.product.id == p.id) = true <;>
      simp [Function.comp, hx]

/-- `NodupCart` unfolded one line at a time. -/
theorem nodupCart_cons_iff (item : CartItem) (rest : List CartItem) :
    NodupCart (item :: rest) ↔
      item.product.id ∉ cartIds rest ∧ NodupCart rest := by
  simp [NodupCart, cartIds, List.nodup_cons]

/-- If the head's id is absent from the tail and matches `p`, no tail line
matches `p`. -/
theorem no_tail_match_of_not_mem (item : CartItem) (rest : List CartItem)
    (p : Product) (hnm : item.product.id ∉ cartIds rest)
    (hit : (item.product.id == p.id) = true) :
    ∀ x ∈ rest, (x.product.id == p.id) = false := by
  intro x hx
  refine beq_eq_false_iff_ne.mpr ?_
  intro hxp
  have hpid : item.product.id = p.id := by simpa using hit
  refine hnm ?_
  have hxm : x.product.id ∈ cartIds rest := List.mem_map_of_mem _ hx
  rw [hpid, ← hxp]
  exact hxm

/-- Quantity recorded by a cons cell. -/
theorem cartQty_cons (item : CartItem) (rest : List CartItem) (pid : Nat) :
    cartQty (item :: rest) pid =
      (if (item.product.id == pid) = true then item.quantity else 0) +
        cartQty rest pid := by
  by_cases hx : (item.product.id == pid) = true <;>
    simp [cartQty, List.filter_cons, hx]

/-- Line count contributed by a cons cell. -/
theorem linesFor_cons (item : CartItem) (rest : List CartItem) (pid : Nat) :
    linesFor (item :: rest) pid =
      (if (item.product.id == pid) = true then 1 else 0) +
        linesFor rest pid := by
  by_cases hx : (item.product.id == pid) = true
  · simp [linesFor, List.filter_cons, hx]
    omega
  · simp [linesFor, List.filter_cons, hx]

/-- A cart with no matching line records quantity zero for the id. -/
theorem cartQty_eq_zero_of_no_match (cart : List CartItem) (pid : Nat)
    (h : ∀ x ∈ cart, (x.product.id == pid) = false) : cartQty cart pid = 0 := by
  have hnil : cart.filter (fun item => item.product.id == pid) = [] :=
    List.filter_eq_nil_iff.mpr (fun x hx => by simp [h x hx])
  simp [cartQty, hnil]

/-- A cart with no matching line has no line for the id. -/
theorem linesFor_eq_zero_of_no_match (cart : List CartItem) (pid : Nat)
    (h : ∀ x ∈ cart, (x.product.id == pid) = false) : linesFor cart pid = 0 := by
  have hnil : cart.filter (fun item => item.product.id == pid) = [] :=
    List.filter_eq_nil_iff.mpr (fun x hx => by simp [h x hx])
  simp [linesFor, hnil]

/-- Merging preserves the no-duplicate-product invariant. -/
theorem nodupCart_mergeAddToCart (cart : List CartItem) (p : Product) (q : Nat)
    (h : NodupCart cart) : NodupCart (mergeAddToCart cart p q) := by
  induction cart with
  | nil =>
      simp [NodupCart, mergeAddToCart, cartIds]
  | cons item rest ih =>
      rw [nodupCart_cons_iff] at h
      by_cases hit : (item.product.id == p.id) = true
      · rw [mergeAddToCart_cons_of_eq item rest p q hit
          (no_tail_match_of_not_mem item rest p h.1 hit)]
        rw [nodupCart_cons_iff]
        exact ⟨h.1, h.2⟩
      · rw [Bool.not_eq_true] at hit
        rw [mergeAddToCart_cons_of_ne item rest p q hit]
        rw [nodupCart_cons_iff]
        refine ⟨?_, ih h.2⟩
        intro hmem
        rcases cartIds_mergeAddToCart rest p q with hi | hi <;>
          rw [hi] at hmem
        · exact h.1 hmem
        · rcases List.mem_append.mp hmem with hmem | hmem
          · exact h.1 hmem
          · have heq : item.product.id = p.id := by simpa using hmem
            exact absurd heq (by simpa using hit)

/-- Merging adds the requested quantity to the product's total. -/
theorem cartQty_mergeAddToCart (cart : List CartItem) (p : Product) (q : Nat)
    (h : NodupCart cart) :
    cartQty (mergeAddToCart cart p q) p.id = cartQty cart p.id + q := by
  induction cart with
  | nil =>
      simp [mergeAddToCart, cartQty]
  | cons item rest ih =>
      rw [nodupCart_cons_iff] at h
      by_cases hit : (item.product.id == p.id) = true
      · have hrest := no_tail_match_of_not_mem item rest p h.1 hit
        rw [mergeAddToCart_cons_of_eq item rest p q hit hrest,
          cartQty_cons, cartQty_cons,
          cartQty_eq_zero_of_no_match rest p.id hrest]
        simp [hit]
      · rw [Bool.not_eq_true] at hit
        rw [mergeAddToCart_cons_of_ne item rest p q hit,
          cartQty_cons, cartQty_cons, ih h.2]
        simp [hit]

/-- After a merge the cart has exactly one line for the product. -/
theorem linesFor_mergeAddToCart (cart : List CartItem) (p : Product) (q : Nat)
    (h : NodupCart cart) :
    linesFor (mergeAddToCart cart p q) p.id = 1 := by
  induction cart with
  | nil =>
      simp [mergeAddToCart, linesFor]
  | cons item rest ih =>
      rw [nodupCart_cons_iff] at h
      by_cases hit : (item.product.id == p.id) = true
      · have hrest := no_tail_match_of_not_mem item rest p h.1 hit
        rw [mergeAddToCart_cons_of_eq item rest p q hit hrest,
          linesFor_cons, linesFor_eq_zero_of_no_match rest p.id hrest]
        simp [hit]
      · rw [Bool.not_eq_true] at hit
        rw [mergeAddToCart_cons_of_ne item rest p q hit,
          linesFor_cons, ih h.2]
        simp [hit]

/-- C1 counterexample: from a fresh session, `START`, `ADD_TO_CART` product
42 (handled in `greeting`, which appends unconditionally), `VIEW_CART`,
then `ADD_TO_CART` product 42 again (handled in `reviewingCart`, which also
appends unconditionally) ends with TWO cart lines for product 42, of
quantities 1 and 2 — not one line of quantity 3, refuting the claim for
sequences that pass through those states. -/
theorem addToCart_duplicate_lines_counterexample :
    (runMachine (initialConfig "u")
      [.START, .ADD_TO_CART latte 1, .VIEW_CART,
        .ADD_TO_CART latte 2]).context.cart = [⟨latte, 1⟩, ⟨latte, 2⟩] ∧
    linesFor (runMachine (initialConfig "u")
      [.START, .ADD_TO_CART latte 1, .VIEW_CART,
        .ADD_TO_CART latte 2]).context.cart latte.id = 2 ∧
    ¬ NodupCart (runMachine (initialConfig "u")
      [.START, .ADD_TO_CART latte 1, .VIEW_CART,
        .ADD_TO_CART latte 2]).context.cart := by
  exact ⟨by decide, by decide, by decide⟩

/-- C1 (amended): for `ADD_TO_CART` events processed in the
`selectingProducts` self-loop (conversation.model.ts:212-230), the claim
holds: starting from a duplicate-free cart, delivering any sequence of
`ADD_TO_CART` events for the same product keeps the machine in
`selectingProducts`, keeps the cart duplicate-free, leaves exactly one line
for that product (when at least one event arrives), and that line's
quantity grows by the sum of all requested quantities. -/
theorem selectingProducts_addToCart_merge_invariant (ctx : ConversationContext)
    (p : Product) (qs : List Nat) (h : NodupCart ctx.cart) :
    (runMachine ⟨.selectingProducts, ctx⟩
        (qs.map (fun q => ConversationEvent.ADD_TO_CART p q))).state =
      .selectingProducts ∧
    NodupCart (runMachine ⟨.selectingProducts, ctx⟩
        (qs.map (fun q => ConversationEvent.ADD_TO_CART p q))).context.cart ∧
    cartQty (runMachine ⟨.selectingProducts, ctx⟩
        (qs.map (fun q => ConversationEvent.ADD_TO_CART p q))).context.cart
      p.id = cartQty ctx.cart p.id + qs.sum ∧
    (qs ≠ [] →
      linesFor (runMachine ⟨.selectingProducts, ctx⟩
          (qs.map (fun q => ConversationEvent.ADD_TO_CART p q))).context.cart
        p.id = 1) := by
  induction qs generalizing ctx with
  | nil =>
      exact ⟨rfl, h, by simp [runMachine], by simp⟩
  | cons q qs ih =>
      have hstep : machineStep ⟨.selectingProducts, ctx⟩ (.ADD_TO_CART p q) =
          ⟨.selectingProducts,
            { ctx with cart := mergeAddToCart ctx.cart p q }⟩ := rfl
      have hrun : runMachine ⟨.selectingProducts, ctx⟩
          ((q :: qs).map (fun q => ConversationEvent.ADD_TO_CART p q)) =
          runMachine ⟨.selectingProducts,
              { ctx with cart := mergeAddToCart ctx.cart p q }⟩
            (qs.map (fun q => ConversationEvent.ADD_TO_CART p q)) := by
        rw [List.map_cons]
        simp only [runMachine]
        rw [hstep]
      have h' : NodupCart
          ({ ctx with cart := mergeAddToCart ctx.cart p q } :
            ConversationContext).cart :=
        nodupCart_mergeAddToCart ctx.cart p q h
      obtain ⟨hs, hn, hq, hl⟩ :=
        ih { ctx with cart := mergeAddToCart ctx.cart p q } h'
      refine ⟨by rw [hrun]; exact hs, by rw [hrun]; exact hn, ?_, ?_⟩
      · rw [hrun, hq]
        have hm := cartQty_mergeAddToCart ctx.cart p q h
        simp only at hm
        rw [hm, List.sum_cons]
        omega
      · intro _
        rw [hrun]
        rcases Decidable.em (qs = []) with hqs | hqs
        · subst hqs
          simpa [runMachine] using linesFor_mergeAddToCart ctx.cart p q h
        · exact hl hqs

/-- C1 witness: in `selectingProducts` with an empty cart, adding product
42 with quantities 1 then 2 yields exactly one line carrying quantity 3. -/
theorem selectingProducts_addToCart_merge_invariant_witness :
    NodupCart (initialContext "u").cart ∧
    ([1, 2] : List Nat) ≠ [] ∧
    cartQty (runMachine ⟨.selectingProducts, initialContext "u"⟩
        (([1, 2] : List Nat).map
          (fun q => ConversationEvent.ADD_TO_CART latte q))).context.cart
      latte.id =
      cartQty (initialContext "u").cart latte.id + ([1, 2] : List Nat).sum ∧
    linesFor (runMachine ⟨.selectingProducts, initialContext "u"⟩
        (([1, 2] : List Nat).map
          (fun q => ConversationEvent.ADD_TO_CART latte q))).context.cart
      latte.id = 1 := by
  have h := selectingProducts_addToCart_merge_invariant (initialContext "u")
    latte [1, 2] (by decide)
  exact ⟨by decide, by decide, h.2.2.1, h.2.2.2 (by decide)⟩

end Bot
